import Mathlib

/-!
Verification of the NACHA ACH file-generation subsystem of the
nonprofit-fund-accounting repository.

The server endpoints (`server.js`) are embedded directly from the source.
The `nacha-generator` module itself is not part of the provided sources
(only its caller `server.js` is), so the generator is modelled from the
specification (§3–§4 of the spec): fixed-width field formatters, routing
number checksum validation, batch/entry construction with incremental
control-total accumulators, trace-number assignment, and fixed 94-character
record serialization with block padding to a multiple of 10 records.

Strings are modelled as lists of characters; amounts are integer cents.
-/

namespace NachaSpec

/-- Character strings, modelled as lists of characters. -/
abbrev Str := List Char

/-- Numeric value of an ASCII digit character (value of `c - '0'`). -/
def digitVal (c : Char) : Nat := c.toNat - 48

/-- Modelled from the spec (§4.1): the cyclic NACHA/ABA checksum weights
3,7,1 applied to the nine digit positions of a routing number. -/
def checksumWeights : List Nat := [3, 7, 1, 3, 7, 1, 3, 7, 1]

/-- Modelled from the spec (§4.1): the weighted digit sum of a candidate
routing number, pairing each character with its positional weight. -/
def weightedSum (s : Str) : Nat :=
  ((s.zip checksumWeights).map fun p => digitVal p.1 * p.2).sum

/-- Modelled from the spec (§4.1): `validateRoutingNumber` — the input must
be exactly 9 ASCII digits and the weighted checksum must be divisible
by 10; any other input fails closed (returns `false`). Pure and total,
so it never throws. -/
def validateRoutingNumber (s : Str) : Bool :=
  decide (s.length = 9) && s.all Char.isDigit && decide (weightedSum s % 10 = 0)

/-- Decimal rendering of a natural number, fuel-carrying auxiliary
(the fuel is an upper bound on the number, which bounds the digit count). -/
def natToStrAux : Nat → Nat → Str
  | 0, _ => []
  | fuel + 1, n =>
    if n = 0 then [] else natToStrAux fuel (n / 10) ++ [Nat.digitChar (n % 10)]

/-- Decimal rendering of a natural number as a digit string
(empty for 0; every rendered value in this development is padded
afterwards, so the 0 case never shows). -/
def natToStr (n : Nat) : Str := natToStrAux n n

/-- Numeric value of a digit string, most significant digit first. -/
def strToNat (s : Str) : Nat := s.foldl (fun a c => 10 * a + digitVal c) 0

/-- Zero-fill a string on the left up to width `w`; longer strings are kept
whole (the semantics of JavaScript `String.padStart`). -/
def zeroPad (w : Nat) (s : Str) : Str := List.replicate (w - s.length) '0' ++ s

/-- Modelled from the spec (§4.2): numeric field formatter — right-justified,
zero-filled, truncated to the rightmost `w` characters so that every
rendered field has exactly the declared width. -/
def padNum (w : Nat) (s : Str) : Str :=
  let p := zeroPad w s
  p.drop (p.length - w)

/-- Numeric field formatter applied to a natural number. -/
def padNumN (w : Nat) (n : Nat) : Str := padNum w (natToStr n)

/-- Modelled from the spec (§4.2): alphanumeric field formatter —
upper-cased, truncated to width, left-justified, space-filled. -/
def padAlpha (w : Nat) (s : Str) : Str :=
  let t := (s.map Char.toUpper).take w
  t ++ List.replicate (w - t.length) ' '

theorem zeroPad_length_of_le {w : Nat} {s : Str} (h : s.length ≤ w) :
    (zeroPad w s).length = w := by
  simp only [zeroPad, List.length_append, List.length_replicate]
  omega

theorem padNum_length (w : Nat) (s : Str) : (padNum w s).length = w := by
  simp only [padNum, zeroPad, List.length_drop, List.length_append,
    List.length_replicate]
  omega

theorem padNumN_length (w n : Nat) : (padNumN w n).length = w :=
  padNum_length w (natToStr n)

theorem padAlpha_length (w : Nat) (s : Str) : (padAlpha w s).length = w := by
  simp only [padAlpha, List.length_append, List.length_replicate,
    List.length_take, List.length_map]
  omega

theorem strToNat_cons (c : Char) (t : Str) :
    strToNat (c :: t) = List.foldl (fun a d => 10 * a + digitVal d) (digitVal c) t := by
  simp [strToNat]

theorem strToNat_foldl_acc (t : Str) :
    ∀ a : Nat, List.foldl (fun a d => 10 * a + digitVal d) a t
      = a * 10 ^ t.length + strToNat t := by
  induction t with
  | nil => intro a; simp [strToNat]
  | cons c t ih =>
    intro a
    have h1 := ih (10 * a + digitVal c)
    have h2 := ih (digitVal c)
    simp only [List.foldl_cons, List.length_cons]
    rw [h1, strToNat_cons, h2]
    ring

theorem strToNat_append (a b : Str) :
    strToNat (a ++ b) = strToNat a * 10 ^ b.length + strToNat b := by
  simp only [strToNat, List.foldl_append]
  exact strToNat_foldl_acc b _

theorem strToNat_replicate_zero (k : Nat) :
    strToNat (List.replicate k '0') = 0 := by
  induction k with
  | zero => rfl
  | succ k ih =>
    have : strToNat ('0' :: List.replicate k '0') = strToNat (List.replicate k '0') := by
      rw [strToNat_cons]
      have : digitVal '0' = 0 := by decide
      rw [this]
      simp [strToNat]
    simpa [List.replicate_succ, this] using ih

theorem strToNat_zeroPad (w : Nat) (s : Str) :
    strToNat (zeroPad w s) = strToNat s := by
  simp [zeroPad, strToNat_append, strToNat_replicate_zero]

theorem digitVal_digitChar (d : Nat) (h : d < 10) :
    digitVal (Nat.digitChar d) = d := by
  interval_cases d <;> rfl

theorem strToNat_natToStrAux (fuel : Nat) :
    ∀ n : Nat, n ≤ fuel → strToNat (natToStrAux fuel n) = n := by
  induction fuel with
  | zero => intro n hn; interval_cases n; rfl
  | succ fuel ih =>
    intro n hn
    by_cases h0 : n = 0
    · subst h0; simp [natToStrAux, strToNat]
    · have hdiv : n / 10 ≤ fuel := by
        have : n / 10 < n := Nat.div_lt_self (Nat.pos_of_ne_zero h0) (by omega)
        omega
      simp only [natToStrAux, h0, if_false]
      rw [strToNat_append, ih (n / 10) hdiv]
      have hc : strToNat [Nat.digitChar (n % 10)] = n % 10 := by
        rw [strToNat_cons]
        simpa [strToNat] using digitVal_digitChar (n % 10) (Nat.mod_lt n (by omega))
      rw [hc]
      simp only [List.length_cons, List.length_nil, pow_one]
      omega

theorem strToNat_natToStr (n : Nat) : strToNat (natToStr n) = n :=
  strToNat_natToStrAux n n (Nat.le_refl n)

theorem natToStrAux_length_le (fuel : Nat) :
    ∀ n k : Nat, n ≤ fuel → n < 10 ^ k → (natToStrAux fuel n).length ≤ k := by
  induction fuel with
  | zero => intro n k _ _; simp [natToStrAux]
  | succ fuel ih =>
    intro n k hn hk
    by_cases h0 : n = 0
    · subst h0; simp [natToStrAux]
    · match k with
      | 0 => omega
      | k + 1 =>
        have hdiv : n / 10 ≤ fuel := by
          have : n / 10 < n := Nat.div_lt_self (Nat.pos_of_ne_zero h0) (by omega)
          omega
        have hdivk : n / 10 < 10 ^ k := by
          rw [Nat.div_lt_iff_lt_mul (by omega : 0 < 10)]
          calc n < 10 ^ (k + 1) := hk
            _ = 10 ^ k * 10 := by ring
        have := ih (n / 10) k hdiv hdivk
        simp only [natToStrAux, h0, if_false, List.length_append, List.length_cons,
          List.length_nil]
        omega

theorem natToStr_length_le {n k : Nat} (h : n < 10 ^ k) :
    (natToStr n).length ≤ k :=
  natToStrAux_length_le n n k (Nat.le_refl n) h

/-- C1. `validateRoutingNumber` returns `true` exactly on strings of nine
ASCII digits whose NACHA/ABA weighted checksum
`3*(d1+d4+d7) + 7*(d2+d5+d8) + (d3+d6+d9)` is divisible by 10; all other
inputs (wrong length or non-numeric) return `false`, and the function is
total so it never throws. The Chase routing number 021000021 validates
`true` and 021000020 validates `false`. -/
theorem validateRoutingNumber_spec :
    (∀ s : Str, validateRoutingNumber s = true ↔
      ∃ d1 d2 d3 d4 d5 d6 d7 d8 d9 : Char,
        s = [d1, d2, d3, d4, d5, d6, d7, d8, d9] ∧
        (∀ c ∈ s, c.isDigit = true) ∧
        (3 * (digitVal d1 + digitVal d4 + digitVal d7) +
         7 * (digitVal d2 + digitVal d5 + digitVal d8) +
         (digitVal d3 + digitVal d6 + digitVal d9)) % 10 = 0) ∧
    validateRoutingNumber (("021000021").toList) = true ∧
    validateRoutingNumber (("021000020").toList) = false := by
  refine ⟨fun s => ?_, by decide, by decide⟩
  constructor
  · intro h
    simp only [validateRoutingNumber, Bool.and_eq_true, decide_eq_true_eq,
      List.all_eq_true] at h
    obtain ⟨⟨hlen, hdig⟩, hsum⟩ := h
    rcases s with _ | ⟨d1, _ | ⟨d2, _ | ⟨d3, _ | ⟨d4, _ | ⟨d5, _ | ⟨d6, _ |
      ⟨d7, _ | ⟨d8, _ | ⟨d9, _ | ⟨d10, t⟩⟩⟩⟩⟩⟩⟩⟩⟩⟩ <;>
      simp only [List.length_nil, List.length_cons] at hlen <;> try omega
    refine ⟨d1, d2, d3, d4, d5, d6, d7, d8, d9, rfl, ?_, ?_⟩
    · simpa [List.all_eq_true] using hdig
    · simp only [weightedSum, checksumWeights, List.zip, List.zipWith,
        List.map, List.sum_cons, List.sum_nil] at hsum
      omega
  · rintro ⟨d1, d2, d3, d4, d5, d6, d7, d8, d9, rfl, hdig, hsum⟩
    simp only [validateRoutingNumber, Bool.and_eq_true, decide_eq_true_eq,
      List.all_eq_true]
    refine ⟨⟨by simp, by simpa using hdig⟩, ?_⟩
    simp only [weightedSum, checksumWeights, List.zip, List.zipWith,
      List.map, List.sum_cons, List.sum_nil]
    omega

/-- Witness for C1: the universally quantified characterization applied at
the concrete valid routing number 021000021. -/
theorem validateRoutingNumber_spec_witness :
    validateRoutingNumber (("021000021").toList) = true :=
  validateRoutingNumber_spec.2.1

/-! ### Generator data model (modelled from the spec, §3 and §4.3) -/

/-- Modelled from the spec (§4.3): the four supported transaction codes,
using the standard NACHA two-digit values. Checking credit. -/
def CHECKING_CREDIT : Str := [ '2', '2' ]

/-- Checking debit transaction code. -/
def CHECKING_DEBIT : Str := [ '2', '7' ]

/-- Savings credit transaction code. -/
def SAVINGS_CREDIT : Str := [ '3', '2' ]

/-- Savings debit transaction code. -/
def SAVINGS_DEBIT : Str := [ '3', '7' ]

/-- Debit polarity of a transaction code. -/
def isDebitCode (c : Str) : Bool := c = CHECKING_DEBIT ∨ c = SAVINGS_DEBIT

/-- Credit polarity of a transaction code. -/
def isCreditCode (c : Str) : Bool := c = CHECKING_CREDIT ∨ c = SAVINGS_CREDIT

/-- Modelled from the spec (§6): file/company level configuration handed to
the generator constructor by the server (`new NachaGenerator({...})` in
`server.js`). File creation date/time are wall-clock values supplied by
the environment at construction. -/
structure NachaConfig where
  immediateDestination : Str
  immediateOrigin : Str
  companyName : Str
  companyIdentification : Str
  companyEntryDescription : Str
  companyDescriptiveDate : Str
  effectiveEntryDate : Str
  originatingDFIId : Str
  isProduction : Bool
  creationDate : Str
  creationTime : Str
deriving DecidableEq

/-- Parameters of one `addEntry` call (modelled from the spec, §4.3). -/
structure EntryParams where
  transactionCode : Str
  routingNumber : Str
  accountNumber : Str
  amount : Int
  receivingCompanyId : Str
  receivingCompanyName : Str
  addenda : Option Str
deriving DecidableEq

/-- Modelled from the spec (§3): one NACHA entry detail. `seq` is the
file-global sequence number from which the trace number was formed. -/
structure NachaEntry where
  transactionCode : Str
  routingNumber : Str
  accountNumber : Str
  amount : Nat
  receivingCompanyId : Str
  receivingCompanyName : Str
  addenda : Option Str
  seq : Nat
  traceNumber : Str
deriving DecidableEq

/-- Modelled from the spec (§3, §9): one batch with its ordered entries and
the incrementally maintained control accumulators of the source. -/
structure NachaBatchRec where
  batchNumber : Nat
  entries : List NachaEntry
  entryCountAcc : Nat
  entryHashAcc : Nat
  debitAcc : Nat
  creditAcc : Nat
deriving DecidableEq

/-- Modelled from the spec (§9): the generator object. Batches are stored
most-recent-first (`batchesRev`); serialization reverses them back into
creation order. The file-level accumulators mirror the batch ones;
`totalEntryHash` is the field the server persists. -/
structure NachaGen where
  config : NachaConfig
  batchesRev : List NachaBatchRec
  entrySeqCounter : Nat
  entryAddendaCountAcc : Nat
  totalEntryHash : Nat
  fileDebitAcc : Nat
  fileCreditAcc : Nat
deriving DecidableEq

/-- Errors of the generator (spec §7 taxonomy). -/
inductive NachaError where
  | InvalidRoutingNumber
  | InvalidAmount
  | EmptyFile
  | NoBatch
deriving DecidableEq

/-- Fresh generator with no batches and zeroed accumulators. -/
def NachaGen.init (cfg : NachaConfig) : NachaGen :=
  ⟨cfg, [], 0, 0, 0, 0, 0⟩

/-- Modelled from the spec (§4.3): `createBatch` opens a new batch context
with the next sequential batch number (starting at 1 per file) and an
empty entry sequence. -/
def NachaGen.createBatch (g : NachaGen) : NachaGen × Nat :=
  let b : NachaBatchRec := ⟨g.batchesRev.length + 1, [], 0, 0, 0, 0⟩
  ({ g with batchesRev := b :: g.batchesRev }, g.batchesRev.length + 1)

/-- First 8 digits of a receiving routing number as a number — one entry's
contribution to the entry-hash control totals. -/
def routingHash (r : Str) : Nat := strToNat (r.take 8)

/-- Records contributed by one entry (1 entry record, plus 1 addenda record
when addenda text is present). -/
def entryRecordCount (e : NachaEntry) : Nat :=
  1 + (if e.addenda.isSome then 1 else 0)

/-- Modelled from the spec (§4.3): `addEntry` — validates the routing number
(`InvalidRoutingNumber`) and the positive integer amount (`InvalidAmount`),
assigns the next file-global trace number
(originating DFI ++ zero-padded 7-digit sequence, starting at 1), appends
the entry to the open batch, updates batch-level and file-level control
accumulators incrementally, and returns the constructed entry. -/
def NachaGen.addEntry (g : NachaGen) (p : EntryParams) :
    Except NachaError (NachaGen × NachaEntry) :=
  if validateRoutingNumber p.routingNumber = false then
    .error .InvalidRoutingNumber
  else if p.amount ≤ 0 then
    .error .InvalidAmount
  else
    match g.batchesRev with
    | [] => .error .NoBatch
    | b :: rest =>
      let seq := g.entrySeqCounter + 1
      let trace := g.config.originatingDFIId ++ zeroPad 7 (natToStr seq)
      let amt := p.amount.toNat
      let e : NachaEntry :=
        ⟨p.transactionCode, p.routingNumber, p.accountNumber, amt,
         p.receivingCompanyId, p.receivingCompanyName, p.addenda, seq, trace⟩
      let h := routingHash p.routingNumber
      let b' : NachaBatchRec :=
        { b with
          entries := b.entries ++ [e]
          entryCountAcc := b.entryCountAcc + entryRecordCount e
          entryHashAcc := b.entryHashAcc + h
          debitAcc := b.debitAcc + (if isDebitCode p.transactionCode then amt else 0)
          creditAcc := b.creditAcc + (if isCreditCode p.transactionCode then amt else 0) }
      .ok
        ({ g with
            batchesRev := b' :: rest
            entrySeqCounter := seq
            entryAddendaCountAcc := g.entryAddendaCountAcc + entryRecordCount e
            totalEntryHash := g.totalEntryHash + h
            fileDebitAcc := g.fileDebitAcc + (if isDebitCode p.transactionCode then amt else 0)
            fileCreditAcc := g.fileCreditAcc + (if isCreditCode p.transactionCode then amt else 0) },
         e)

/-- Concatenation of a list of lists (records of all batches, in order). -/
def concatAll : List (List α) → List α
  | [] => []
  | l :: ls => l ++ concatAll ls

/-- All entries of the file, in creation (entry) order. -/
def NachaGen.allEntries (g : NachaGen) : List NachaEntry :=
  concatAll (g.batchesRev.reverse.map NachaBatchRec.entries)

/-- One builder operation, for reasoning about arbitrary construction runs. -/
inductive NachaOp where
  | createBatch
  | addEntry (p : EntryParams)

/-- Apply one operation; a failing `addEntry` leaves the generator unchanged
(the caller receives the error and no entry is appended). -/
def NachaGen.applyOp (g : NachaGen) : NachaOp → NachaGen
  | .createBatch => g.createBatch.1
  | .addEntry p =>
    match g.addEntry p with
    | .ok r => r.1
    | .error _ => g

/-- Run a sequence of builder operations from a given generator state. -/
def NachaGen.runOps (g : NachaGen) (ops : List NachaOp) : NachaGen :=
  ops.foldl NachaGen.applyOp g

/-! ### Recomputed control totals and the accumulator invariant -/

/-- Independently recomputed entry hash of a list of entries: the sum of the
8-digit routing prefixes. -/
def sumHash (l : List NachaEntry) : Nat :=
  (l.map fun e => routingHash e.routingNumber).sum

/-- Independently recomputed total debit amount of a list of entries. -/
def sumDebit (l : List NachaEntry) : Nat :=
  (l.map fun e => if isDebitCode e.transactionCode then e.amount else 0).sum

/-- Independently recomputed total credit amount of a list of entries. -/
def sumCredit (l : List NachaEntry) : Nat :=
  (l.map fun e => if isCreditCode e.transactionCode then e.amount else 0).sum

/-- Independently recomputed entry/addenda record count of a list of entries. -/
def sumRecords (l : List NachaEntry) : Nat :=
  (l.map entryRecordCount).sum

theorem sumHash_append (a b : List NachaEntry) :
    sumHash (a ++ b) = sumHash a + sumHash b := by
  simp [sumHash]

theorem sumDebit_append (a b : List NachaEntry) :
    sumDebit (a ++ b) = sumDebit a + sumDebit b := by
  simp [sumDebit]

theorem sumCredit_append (a b : List NachaEntry) :
    sumCredit (a ++ b) = sumCredit a + sumCredit b := by
  simp [sumCredit]

theorem sumRecords_append (a b : List NachaEntry) :
    sumRecords (a ++ b) = sumRecords a + sumRecords b := by
  simp [sumRecords]

theorem concatAll_append (xs ys : List (List α)) :
    concatAll (xs ++ ys) = concatAll xs ++ concatAll ys := by
  induction xs with
  | nil => simp [concatAll]
  | cons l ls ih => simp [concatAll, ih]

theorem mem_concatAll {x : α} {ls : List (List α)} :
    x ∈ concatAll ls ↔ ∃ l ∈ ls, x ∈ l := by
  induction ls with
  | nil => simp [concatAll]
  | cons l ls ih => simp [concatAll, ih]

theorem allEntries_init (cfg : NachaConfig) :
    (NachaGen.init cfg).allEntries = [] := rfl

theorem allEntries_createBatch (g : NachaGen) :
    g.createBatch.1.allEntries = g.allEntries := by
  simp [NachaGen.createBatch, NachaGen.allEntries, concatAll_append, concatAll]

/-- Structure of a successful `addEntry`: the head batch is extended with the
new entry and every accumulator advances by that entry's contribution. -/
theorem addEntry_ok_spec {g g' : NachaGen} {p : EntryParams} {e : NachaEntry}
    (h : g.addEntry p = .ok (g', e)) :
    ∃ b rest,
      g.batchesRev = b :: rest ∧
      validateRoutingNumber p.routingNumber = true ∧
      0 < p.amount ∧
      e = ⟨p.transactionCode, p.routingNumber, p.accountNumber, p.amount.toNat,
           p.receivingCompanyId, p.receivingCompanyName, p.addenda,
           g.entrySeqCounter + 1,
           g.config.originatingDFIId ++ zeroPad 7 (natToStr (g.entrySeqCounter + 1))⟩ ∧
      g' = { g with
              batchesRev :=
                { b with
                  entries := b.entries ++ [e]
                  entryCountAcc := b.entryCountAcc + entryRecordCount e
                  entryHashAcc := b.entryHashAcc + routingHash p.routingNumber
                  debitAcc := b.debitAcc +
                    (if isDebitCode p.transactionCode then p.amount.toNat else 0)
                  creditAcc := b.creditAcc +
                    (if isCreditCode p.transactionCode then p.amount.toNat else 0) } :: rest
              entrySeqCounter := g.entrySeqCounter + 1
              entryAddendaCountAcc := g.entryAddendaCountAcc + entryRecordCount e
              totalEntryHash := g.totalEntryHash + routingHash p.routingNumber
              fileDebitAcc := g.fileDebitAcc +
                (if isDebitCode p.transactionCode then p.amount.toNat else 0)
              fileCreditAcc := g.fileCreditAcc +
                (if isCreditCode p.transactionCode then p.amount.toNat else 0) } := by
  unfold NachaGen.addEntry at h
  by_cases hv : validateRoutingNumber p.routingNumber = false
  · simp [hv] at h
  · by_cases ha : p.amount ≤ 0
    · simp [hv, ha] at h
    · match hb : g.batchesRev with
      | [] => simp [hv, ha, hb] at h
      | b :: rest =>
        simp only [hv, ha, hb, Bool.false_eq_true, if_false,
          Except.ok.injEq, Prod.mk.injEq] at h
        obtain ⟨rfl, rfl⟩ := h
        refine ⟨b, rest, rfl, ?_, by omega, rfl, rfl⟩
        cases hvb : validateRoutingNumber p.routingNumber
        · exact absurd hvb hv
        · rfl

theorem allEntries_cons_head (cfg : NachaConfig) (b : NachaBatchRec)
    (rest : List NachaBatchRec) (n c h d cr : Nat) :
    NachaGen.allEntries ⟨cfg, b :: rest, n, c, h, d, cr⟩ =
      NachaGen.allEntries ⟨cfg, rest, n, c, h, d, cr⟩ ++ b.entries := by
  simp [NachaGen.allEntries, List.reverse_cons, concatAll_append, concatAll]

theorem allEntries_addEntry_ok {g g' : NachaGen} {p : EntryParams} {e : NachaEntry}
    (h : g.addEntry p = .ok (g', e)) :
    g'.allEntries = g.allEntries ++ [e] := by
  obtain ⟨b, rest, hb, _, _, _, hg⟩ := addEntry_ok_spec h
  subst hg
  simp [NachaGen.allEntries, hb, List.reverse_cons, concatAll_append, concatAll]

/-- Invariant tying the incrementally maintained accumulators (as the
source keeps them, per spec §9) to the control totals independently
recomputed from the stored entries, and recording the trace-number
discipline: the sequence numbers of the file's entries, in entry order,
are exactly 1, 2, ..., n. -/
structure GenInv (g : NachaGen) : Prop where
  batchCount : ∀ b ∈ g.batchesRev, b.entryCountAcc = sumRecords b.entries
  batchHash : ∀ b ∈ g.batchesRev, b.entryHashAcc = sumHash b.entries
  batchDebit : ∀ b ∈ g.batchesRev, b.debitAcc = sumDebit b.entries
  batchCredit : ∀ b ∈ g.batchesRev, b.creditAcc = sumCredit b.entries
  fileCount : g.entryAddendaCountAcc = sumRecords g.allEntries
  fileHash : g.totalEntryHash = sumHash g.allEntries
  fileDebit : g.fileDebitAcc = sumDebit g.allEntries
  fileCredit : g.fileCreditAcc = sumCredit g.allEntries
  counter : g.entrySeqCounter = g.allEntries.length
  seqs : g.allEntries.map NachaEntry.seq = List.range' 1 g.allEntries.length
  traces : ∀ e ∈ g.allEntries,
    e.traceNumber = g.config.originatingDFIId ++ zeroPad 7 (natToStr e.seq)
  valid : ∀ e ∈ g.allEntries,
    validateRoutingNumber e.routingNumber = true ∧ 0 < e.amount

theorem genInv_init (cfg : NachaConfig) : GenInv (NachaGen.init cfg) := by
  refine ⟨?_, ?_, ?_, ?_, rfl, rfl, rfl, rfl, rfl, rfl, ?_, ?_⟩ <;>
    simp [NachaGen.init, NachaGen.allEntries, concatAll]

theorem genInv_createBatch {g : NachaGen} (hg : GenInv g) :
    GenInv g.createBatch.1 := by
  have hall := allEntries_createBatch g
  refine ⟨?_, ?_, ?_, ?_, ?_, ?_, ?_, ?_, ?_, ?_, ?_, ?_⟩
  · intro b hb
    rcases List.mem_cons.mp hb with h | h
    · subst h; simp [sumRecords]
    · exact hg.batchCount b h
  · intro b hb
    rcases List.mem_cons.mp hb with h | h
    · subst h; simp [sumHash]
    · exact hg.batchHash b h
  · intro b hb
    rcases List.mem_cons.mp hb with h | h
    · subst h; simp [sumDebit]
    · exact hg.batchDebit b h
  · intro b hb
    rcases List.mem_cons.mp hb with h | h
    · subst h; simp [sumCredit]
    · exact hg.batchCredit b h
  · rw [hall]; exact hg.fileCount
  · rw [hall]; exact hg.fileHash
  · rw [hall]; exact hg.fileDebit
  · rw [hall]; exact hg.fileCredit
  · rw [hall]; exact hg.counter
  · rw [hall]; exact hg.seqs
  · rw [hall]; exact hg.traces
  · rw [hall]; exact hg.valid

theorem genInv_addEntry_ok {g g' : NachaGen} {p : EntryParams} {e : NachaEntry}
    (hg : GenInv g) (h : g.addEntry p = .ok (g', e)) : GenInv g' := by
  have hall := allEntries_addEntry_ok h
  obtain ⟨b, rest, hb, hvr, hamt, he, hgg⟩ := addEntry_ok_spec h
  have hbmem : b ∈ g.batchesRev := by rw [hb]; exact List.mem_cons_self b rest
  have hseq : e.seq = g.allEntries.length + 1 := by
    rw [he]; simpa using hg.counter
  refine ⟨?_, ?_, ?_, ?_, ?_, ?_, ?_, ?_, ?_, ?_, ?_, ?_⟩
  · intro b'' hb''
    rw [hgg] at hb''
    simp only at hb''
    rcases List.mem_cons.mp hb'' with hh | hh
    · subst hh
      simp only [sumRecords_append, ← hg.batchCount b hbmem]
      simp [sumRecords]
    · exact hg.batchCount b'' (by rw [hb]; exact List.mem_cons_of_mem _ hh)
  · intro b'' hb''
    rw [hgg] at hb''
    simp only at hb''
    rcases List.mem_cons.mp hb'' with hh | hh
    · subst hh
      simp only [sumHash_append, ← hg.batchHash b hbmem]
      simp [sumHash, he, routingHash]
    · exact hg.batchHash b'' (by rw [hb]; exact List.mem_cons_of_mem _ hh)
  · intro b'' hb''
    rw [hgg] at hb''
    simp only at hb''
    rcases List.mem_cons.mp hb'' with hh | hh
    · subst hh
      simp only [sumDebit_append, ← hg.batchDebit b hbmem]
      simp [sumDebit, he]
    · exact hg.batchDebit b'' (by rw [hb]; exact List.mem_cons_of_mem _ hh)
  · intro b'' hb''
    rw [hgg] at hb''
    simp only at hb''
    rcases List.mem_cons.mp hb'' with hh | hh
    · subst hh
      simp only [sumCredit_append, ← hg.batchCredit b hbmem]
      simp [sumCredit, he]
    · exact hg.batchCredit b'' (by rw [hb]; exact List.mem_cons_of_mem _ hh)
  · rw [hall, hgg, sumRecords_append]
    simp only
    rw [hg.fileCount]
    simp [sumRecords]
  · rw [hall, hgg, sumHash_append]
    simp only
    rw [hg.fileHash]
    simp [sumHash, he, routingHash]
  · rw [hall, hgg, sumDebit_append]
    simp only
    rw [hg.fileDebit]
    simp [sumDebit, he]
  · rw [hall, hgg, sumCredit_append]
    simp only
    rw [hg.fileCredit]
    simp [sumCredit, he]
  · rw [hall, hgg]
    simp only [List.length_append, List.length_cons, List.length_nil]
    rw [hg.counter]
  · rw [hall]
    simp only [List.map_append, List.length_append, List.length_cons,
      List.length_nil, List.map_cons, List.map_nil]
    rw [hg.seqs, hseq]
    have := List.range'_1_concat 1 g.allEntries.length
    rw [this]
    simp [Nat.add_comm]
  · intro e' he'
    rw [hall] at he'
    rcases List.mem_append.mp he' with hh | hh
    · have := hg.traces e' hh
      rw [hgg]
      simpa using this
    · have : e' = e := by simpa using hh
      subst this
      rw [hgg]
      simp [he]
  · intro e' he'
    rw [hall] at he'
    rcases List.mem_append.mp he' with hh | hh
    · exact hg.valid e' hh
    · have : e' = e := by simpa using hh
      subst this
      rw [he]
      refine ⟨hvr, ?_⟩
      simp only
      omega

theorem genInv_applyOp {g : NachaGen} (hg : GenInv g) (op : NachaOp) :
    GenInv (g.applyOp op) := by
  cases op with
  | createBatch => exact genInv_createBatch hg
  | addEntry p =>
    simp only [NachaGen.applyOp]
    match hr : g.addEntry p with
    | .ok r =>
      have : g.addEntry p = .ok (r.1, r.2) := by rw [hr]
      exact genInv_addEntry_ok hg this
    | .error _ => exact hg

theorem genInv_runOps_aux : ∀ (ops : List NachaOp) (g : NachaGen),
    GenInv g → GenInv (g.runOps ops) := by
  intro ops
  induction ops with
  | nil => intro g hg; exact hg
  | cons op ops ih =>
    intro g hg
    have : g.runOps (op :: ops) = (g.applyOp op).runOps ops := by
      simp [NachaGen.runOps]
    rw [this]
    exact ih _ (genInv_applyOp hg op)

/-- Every generator state reachable from a fresh generator satisfies the
accumulator/trace invariant. -/
theorem genInv_runOps (cfg : NachaConfig) (ops : List NachaOp) :
    GenInv ((NachaGen.init cfg).runOps ops) :=
  genInv_runOps_aux ops _ (genInv_init cfg)

theorem config_applyOp (g : NachaGen) (op : NachaOp) :
    (g.applyOp op).config = g.config := by
  cases op with
  | createBatch => rfl
  | addEntry p =>
    simp only [NachaGen.applyOp]
    match hr : g.addEntry p with
    | .ok r =>
      have : g.addEntry p = .ok (r.1, r.2) := by rw [hr]
      obtain ⟨b, rest, _, _, _, _, hgg⟩ := addEntry_ok_spec this
      show r.1.config = g.config
      rw [hgg]
    | .error _ => rfl

theorem config_runOps (cfg : NachaConfig) (ops : List NachaOp) :
    ((NachaGen.init cfg).runOps ops).config = cfg := by
  suffices h : ∀ (ops : List NachaOp) (g : NachaGen), (g.runOps ops).config = g.config by
    exact h ops _
  intro ops
  induction ops with
  | nil => intro g; rfl
  | cons op ops ih =>
    intro g
    have : g.runOps (op :: ops) = (g.applyOp op).runOps ops := by
      simp [NachaGen.runOps]
    rw [this, ih, config_applyOp]

/-! ### Record serialization (modelled from the spec, §4.2 and §4.4):
fixed-width fields concatenated into 94-character record lines. -/

/-- File header record (type 1). -/
def fileHeaderRec (cfg : NachaConfig) : Str :=
  [ '1' ] ++ [ '0', '1' ] ++ padNum 10 cfg.immediateDestination ++
    padNum 10 cfg.immediateOrigin ++ padNum 6 cfg.creationDate ++
    padNum 4 cfg.creationTime ++ [ 'A' ] ++ [ '0', '9', '4' ] ++
    [ '1', '0' ] ++ [ '1' ] ++ padAlpha 23 cfg.immediateDestination ++
    padAlpha 23 cfg.companyName ++ padAlpha 8 []

/-- Batch header record (type 5). -/
def batchHeaderRec (cfg : NachaConfig) (b : NachaBatchRec) : Str :=
  [ '5' ] ++ [ '2', '0', '0' ] ++ padAlpha 16 cfg.companyName ++
    padAlpha 20 [] ++ padAlpha 10 cfg.companyIdentification ++
    [ 'P', 'P', 'D' ] ++ padAlpha 10 cfg.companyEntryDescription ++
    padAlpha 6 cfg.companyDescriptiveDate ++ padNum 6 cfg.effectiveEntryDate ++
    padAlpha 3 [] ++ [ '1' ] ++ padNum 8 cfg.originatingDFIId ++
    padNumN 7 b.batchNumber

/-- Addenda indicator digit of an entry. -/
def addendaIndicator (e : NachaEntry) : Char :=
  if e.addenda.isSome then '1' else '0'

/-- Entry detail record (type 6). -/
def entryDetailRec (e : NachaEntry) : Str :=
  [ '6' ] ++ padNum 2 e.transactionCode ++ padNum 8 (e.routingNumber.take 8) ++
    padNum 1 (e.routingNumber.drop 8) ++ padAlpha 17 e.accountNumber ++
    padNumN 10 e.amount ++ padAlpha 15 e.receivingCompanyId ++
    padAlpha 22 e.receivingCompanyName ++ padAlpha 2 [] ++
    [ addendaIndicator e ] ++ padNum 15 e.traceNumber

/-- Addenda record (type 7), emitted right after its parent entry when
addenda text is present; addenda sequence number fixed at 1. -/
def addendaRec (a : Str) (e : NachaEntry) : Str :=
  [ '7' ] ++ [ '0', '5' ] ++ padAlpha 80 a ++ padNumN 4 1 ++ padNumN 7 e.seq

/-- Records contributed by one entry: the entry detail record followed by
one addenda record when addenda text is present. -/
def NachaEntry.records (e : NachaEntry) : List Str :=
  match e.addenda with
  | none => [entryDetailRec e]
  | some a => [entryDetailRec e, addendaRec a e]

/-- Batch control record contents (type 8), taken from the batch's
incrementally maintained accumulators; the entry hash is reduced
mod 10^10 as the spec requires. -/
structure BatchControlRec where
  entryAddendaCount : Nat
  entryHash : Nat
  totalDebit : Nat
  totalCredit : Nat
  companyIdentification : Str
  originatingDFIId : Str
  batchNumber : Nat
deriving DecidableEq

/-- Batch control record of a batch. -/
def NachaBatchRec.controlRec (cfg : NachaConfig) (b : NachaBatchRec) : BatchControlRec :=
  ⟨b.entryCountAcc, b.entryHashAcc % 10 ^ 10, b.debitAcc, b.creditAcc,
   cfg.companyIdentification, cfg.originatingDFIId, b.batchNumber⟩

/-- Serialization of a batch control record. -/
def BatchControlRec.serialize (r : BatchControlRec) : Str :=
  [ '8' ] ++ [ '2', '0', '0' ] ++ padNumN 6 r.entryAddendaCount ++
    padNumN 10 r.entryHash ++ padNumN 12 r.totalDebit ++
    padNumN 12 r.totalCredit ++ padAlpha 10 r.companyIdentification ++
    padAlpha 19 [] ++ padAlpha 6 [] ++ padNum 8 r.originatingDFIId ++
    padNumN 7 r.batchNumber

/-- Records of one batch: header, entry (and addenda) records, control. -/
def NachaBatchRec.records (cfg : NachaConfig) (b : NachaBatchRec) : List Str :=
  [batchHeaderRec cfg b] ++ concatAll (b.entries.map NachaEntry.records) ++
    [(b.controlRec cfg).serialize]

/-- File control record contents (type 9). -/
structure FileControlRec where
  batchCount : Nat
  blockCount : Nat
  entryAddendaCount : Nat
  entryHash : Nat
  totalDebit : Nat
  totalCredit : Nat
deriving DecidableEq

/-- Serialization of the file control record. -/
def FileControlRec.serialize (r : FileControlRec) : Str :=
  [ '9' ] ++ padNumN 6 r.batchCount ++ padNumN 6 r.blockCount ++
    padNumN 8 r.entryAddendaCount ++ padNumN 10 r.entryHash ++
    padNumN 12 r.totalDebit ++ padNumN 12 r.totalCredit ++ padAlpha 39 []

/-- A '9'-filled filler record. -/
def fillerRec : Str := List.replicate 94 '9'

/-- File control record of a generator, from its file-level accumulators.
`bodyLen` is the number of records before block padding; the block count
is the padded total divided by the blocking factor 10. -/
def NachaGen.fileControlRec (g : NachaGen) (bodyLen : Nat) : FileControlRec :=
  ⟨g.batchesRev.length, (bodyLen + 9) / 10, g.entryAddendaCountAcc,
   g.totalEntryHash % 10 ^ 10, g.fileDebitAcc, g.fileCreditAcc⟩

/-- Body of the generated file (header, batches, file control), before
block padding. -/
def NachaGen.fileBody (g : NachaGen) : List Str :=
  let batchRecs := concatAll (g.batchesRev.reverse.map (NachaBatchRec.records g.config))
  [fileHeaderRec g.config] ++ batchRecs ++
    [(g.fileControlRec (batchRecs.length + 2)).serialize]

/-- Record lines of the generated file: the body followed by '9'-filled
filler records padding the count to the next multiple of 10. -/
def NachaGen.fileLines (g : NachaGen) : List Str :=
  g.fileBody ++ List.replicate ((10 - g.fileBody.length % 10) % 10) fillerRec

/-- Modelled from the spec (§4.4): `generateFile` — fails with `EmptyFile`
when there are no batches or no entries; otherwise produces the file
header, each batch's records in creation order, the file control record,
and '9'-filled filler records padding the record count to the next
multiple of 10. Returns the list of record lines. -/
def NachaGen.generateFile (g : NachaGen) : Except NachaError (List Str) :=
  if g.batchesRev.isEmpty ∨ g.batchesRev.all (fun b => b.entries.isEmpty) then
    .error .EmptyFile
  else
    .ok g.fileLines

/-! ### Record length facts -/

theorem fileHeaderRec_length (cfg : NachaConfig) : (fileHeaderRec cfg).length = 94 := by
  simp [fileHeaderRec, padNum_length, padAlpha_length, List.length_append]

theorem batchHeaderRec_length (cfg : NachaConfig) (b : NachaBatchRec) :
    (batchHeaderRec cfg b).length = 94 := by
  simp [batchHeaderRec, padNum_length, padNumN_length, padAlpha_length, List.length_append]

theorem entryDetailRec_length (e : NachaEntry) : (entryDetailRec e).length = 94 := by
  simp [entryDetailRec, padNum_length, padNumN_length, padAlpha_length, List.length_append]

theorem addendaRec_length (a : Str) (e : NachaEntry) : (addendaRec a e).length = 94 := by
  simp [addendaRec, padNumN_length, padAlpha_length, List.length_append]

theorem batchControlRec_length (r : BatchControlRec) : r.serialize.length = 94 := by
  simp [BatchControlRec.serialize, padNum_length, padNumN_length, padAlpha_length,
    List.length_append]

theorem fileControlRec_length (r : FileControlRec) : r.serialize.length = 94 := by
  simp [FileControlRec.serialize, padNumN_length, padAlpha_length, List.length_append]

theorem fillerRec_length : fillerRec.length = 94 := by
  simp [fillerRec]

theorem entryRecords_length {e : NachaEntry} {l : Str} (h : l ∈ e.records) :
    l.length = 94 := by
  unfold NachaEntry.records at h
  match ha : e.addenda with
  | none =>
    rw [ha] at h
    simp only [List.mem_singleton] at h
    subst h
    exact entryDetailRec_length e
  | some a =>
    rw [ha] at h
    simp only [List.mem_cons, List.not_mem_nil, or_false] at h
    rcases h with h | h
    · subst h
      exact entryDetailRec_length e
    · subst h
      exact addendaRec_length a e

theorem batchRecords_length {cfg : NachaConfig} {b : NachaBatchRec} {l : Str}
    (h : l ∈ b.records cfg) : l.length = 94 := by
  unfold NachaBatchRec.records at h
  rcases List.mem_append.mp h with h1 | h1
  · rcases List.mem_append.mp h1 with h2 | h2
    · simp only [List.mem_singleton] at h2
      subst h2
      exact batchHeaderRec_length cfg b
    · obtain ⟨rs, hrs, hl⟩ := mem_concatAll.mp h2
      obtain ⟨e, _, rfl⟩ := List.mem_map.mp hrs
      exact entryRecords_length hl
  · simp only [List.mem_singleton] at h1
    subst h1
    exact batchControlRec_length _

/-- C2. Every record line of a file produced by `generateFile` is exactly
94 characters long, and the total number of record lines is a multiple
of 10, achieved by appending '9'-filled filler records after the file
control record. -/
theorem fileLines_record_lengths (g : NachaGen) :
    (∀ l ∈ g.fileLines, l.length = 94) ∧ g.fileLines.length % 10 = 0 := by
  constructor
  · intro l hl
    rcases List.mem_append.mp hl with h1 | h1
    · unfold NachaGen.fileBody at h1
      rcases List.mem_append.mp h1 with h2 | h2
      · rcases List.mem_append.mp h2 with h3 | h3
        · simp only [List.mem_singleton] at h3
          subst h3
          exact fileHeaderRec_length g.config
        · obtain ⟨rs, hrs, hlm⟩ := mem_concatAll.mp h3
          obtain ⟨b, _, rfl⟩ := List.mem_map.mp hrs
          exact batchRecords_length hlm
      · simp only [List.mem_singleton] at h2
        subst h2
        exact fileControlRec_length _
    · have := List.eq_of_mem_replicate h1
      subst this
      exact fillerRec_length
  · unfold NachaGen.fileLines
    simp only [List.length_append, List.length_replicate]
    omega

/-- C2. Every record line of a file produced by `generateFile` is exactly
94 characters long, and the total number of record lines is a multiple
of 10, achieved by appending '9'-filled filler records after the file
control record. -/
theorem generateFile_record_lengths (g : NachaGen) (lines : List Str)
    (h : g.generateFile = .ok lines) :
    (∀ l ∈ lines, l.length = 94) ∧ lines.length % 10 = 0 := by
  unfold NachaGen.generateFile at h
  split at h
  · exact absurd h (by simp)
  · have : lines = g.fileLines := by
      simpa [eq_comm] using h
    rw [this]
    exact fileLines_record_lengths g

/-- Demonstration configuration used by the concrete witnesses. -/
def demoConfig : NachaConfig :=
  ⟨("999999999").toList, ("0123456789").toList, ("TPF").toList,
   ("1234567890").toList, ("PAYMENT").toList, ("251010").toList,
   ("251012").toList, ("02100002").toList, false,
   ("251012").toList, ("0930").toList⟩

/-- Demonstration entry parameters (valid routing number, $100.00 credit). -/
def demoParams : EntryParams :=
  ⟨CHECKING_CREDIT, ("021000021").toList, ("12345678").toList, (10000 : Int),
   ("VEND1").toList, ("ACME SUPPLIES").toList, none⟩

/-- Demonstration generator: one batch holding one valid entry. -/
def demoGen : NachaGen :=
  (NachaGen.init demoConfig).runOps [NachaOp.createBatch, NachaOp.addEntry demoParams]

/-- Record lines of the demonstration generator's file. -/
def demoLines : List Str :=
  match demoGen.generateFile with
  | .ok ls => ls
  | .error _ => []

/-- Witness for C2: the demonstration file evaluates concretely and its
record lines satisfy the length and block-count properties. -/
theorem generateFile_record_lengths_witness :
    (∀ l ∈ demoLines, l.length = 94) ∧ demoLines.length % 10 = 0 :=
  generateFile_record_lengths demoGen demoLines rfl

/-! ### Trace numbers (C4) -/

theorem strToNat_trace (dfi : Str) {s : Nat} (hs : s < 10 ^ 7) :
    strToNat (dfi ++ zeroPad 7 (natToStr s)) = strToNat dfi * 10 ^ 7 + s := by
  have hlen : (zeroPad 7 (natToStr s)).length = 7 :=
    zeroPad_length_of_le (natToStr_length_le hs)
  rw [strToNat_append, hlen, strToNat_zeroPad, strToNat_natToStr]

theorem trace_injective (dfi : Str) {a b : Nat}
    (h : dfi ++ zeroPad 7 (natToStr a) = dfi ++ zeroPad 7 (natToStr b)) : a = b := by
  have h2 := List.append_cancel_left h
  have h3 := congrArg strToNat h2
  rwa [strToNat_zeroPad, strToNat_zeroPad, strToNat_natToStr, strToNat_natToStr] at h3

theorem seq_bounds_of_mem {g : NachaGen} (hinv : GenInv g) {e : NachaEntry}
    (he : e ∈ g.allEntries) : 1 ≤ e.seq ∧ e.seq ≤ g.allEntries.length := by
  have hm : e.seq ∈ g.allEntries.map NachaEntry.seq := List.mem_map_of_mem _ he
  rw [hinv.seqs] at hm
  have := List.mem_range'_1.mp hm
  omega

theorem seq_pairwise_lt {g : NachaGen} (hinv : GenInv g) :
    g.allEntries.Pairwise (fun a b => a.seq < b.seq) := by
  have h : (g.allEntries.map NachaEntry.seq).Pairwise (· < ·) := by
    rw [hinv.seqs]
    exact List.pairwise_lt_range' 1 g.allEntries.length 1 (by omega)
  exact List.pairwise_map.mp h

/-- C4. In any construction run, every entry's trace number is the
configured originating DFI identifier concatenated with the zero-padded
7-digit rendering of its sequence number; the sequence numbers in entry
order are exactly 1, 2, ..., n; trace numbers are pairwise distinct,
and (whenever the file stays within the 7-digit sequence range, which an
8-digit DFI also makes 15-character traces) strictly increasing in entry
order; `addEntry` returns the constructed entry, which is exactly the one
appended to the file. -/
theorem traceNumber_spec (cfg : NachaConfig) (ops : List NachaOp) :
    (∀ e ∈ ((NachaGen.init cfg).runOps ops).allEntries,
        e.traceNumber = cfg.originatingDFIId ++ zeroPad 7 (natToStr e.seq)) ∧
    ((NachaGen.init cfg).runOps ops).allEntries.map NachaEntry.seq
      = List.range' 1 ((NachaGen.init cfg).runOps ops).allEntries.length ∧
    ((NachaGen.init cfg).runOps ops).allEntries.Pairwise
      (fun a b => a.traceNumber ≠ b.traceNumber) ∧
    (((NachaGen.init cfg).runOps ops).allEntries.length ≤ 9999999 →
      ((NachaGen.init cfg).runOps ops).allEntries.Pairwise
        (fun a b => strToNat a.traceNumber < strToNat b.traceNumber)) ∧
    (cfg.originatingDFIId.length = 8 →
      ((NachaGen.init cfg).runOps ops).allEntries.length ≤ 9999999 →
      ∀ e ∈ ((NachaGen.init cfg).runOps ops).allEntries, e.traceNumber.length = 15) ∧
    (∀ (g' : NachaGen) (p : EntryParams) (r : NachaGen × NachaEntry),
        g'.addEntry p = .ok r → r.1.allEntries = g'.allEntries ++ [r.2]) := by
  have hinv := genInv_runOps cfg ops
  have hcfg := config_runOps cfg ops
  have htr : ∀ e ∈ ((NachaGen.init cfg).runOps ops).allEntries,
      e.traceNumber = cfg.originatingDFIId ++ zeroPad 7 (natToStr e.seq) := by
    intro e he
    rw [← hcfg]
    exact hinv.traces e he
  refine ⟨htr, hinv.seqs, ?_, ?_, ?_, ?_⟩
  · refine (seq_pairwise_lt hinv).imp_of_mem ?_
    intro a b ha hb hlt
    rw [htr a ha, htr b hb]
    intro hEq
    have := trace_injective cfg.originatingDFIId hEq
    omega
  · intro hn
    refine (seq_pairwise_lt hinv).imp_of_mem ?_
    intro a b ha hb hlt
    have hba := seq_bounds_of_mem hinv ha
    have hbb := seq_bounds_of_mem hinv hb
    have h7a : a.seq < 10 ^ 7 := by norm_num; omega
    have h7b : b.seq < 10 ^ 7 := by norm_num; omega
    rw [htr a ha, htr b hb, strToNat_trace _ h7a, strToNat_trace _ h7b]
    omega
  · intro hdfi hn e he
    have hb := seq_bounds_of_mem hinv he
    have h7 : e.seq < 10 ^ 7 := by norm_num; omega
    rw [htr e he]
    simp only [List.length_append, hdfi,
      zeroPad_length_of_le (natToStr_length_le h7)]
  · intro g' p r h
    exact allEntries_addEntry_ok (by rw [h])

/-- Witness for C4: the demonstration run has one entry; its trace number
is the DFI id followed by 0000001, is 15 characters long, and the strict
increase condition's bound is met. -/
theorem traceNumber_spec_witness :
    demoGen.allEntries.map NachaEntry.seq = List.range' 1 demoGen.allEntries.length ∧
    demoGen.allEntries.Pairwise
      (fun a b => strToNat a.traceNumber < strToNat b.traceNumber) ∧
    (∀ e ∈ demoGen.allEntries, e.traceNumber.length = 15) :=
  ⟨(traceNumber_spec demoConfig
      [NachaOp.createBatch, NachaOp.addEntry demoParams]).2.1,
   (traceNumber_spec demoConfig
      [NachaOp.createBatch, NachaOp.addEntry demoParams]).2.2.2.1 (by decide),
   (traceNumber_spec demoConfig
      [NachaOp.createBatch, NachaOp.addEntry demoParams]).2.2.2.2.1
      (by decide) (by decide)⟩

/-! ### Control totals (C3) -/

theorem sumRecords_eq (l : List NachaEntry) :
    sumRecords l = l.length + (l.filter fun e => e.addenda.isSome).length := by
  induction l with
  | nil => rfl
  | cons e t ih =>
    simp only [sumRecords, List.map_cons, List.sum_cons, List.length_cons] at ih ⊢
    by_cases ha : e.addenda.isSome
    · simp only [List.filter_cons, ha, if_pos, entryRecordCount, List.length_cons]
      omega
    · have hb : e.addenda.isSome = false := by
        cases h : e.addenda.isSome
        · rfl
        · exact absurd h ha
      simp only [List.filter_cons, hb, Bool.false_eq_true, if_false, entryRecordCount]
      omega

theorem sumHash_concatAll (ls : List (List NachaEntry)) :
    sumHash (concatAll ls) = (ls.map sumHash).sum := by
  induction ls with
  | nil => rfl
  | cons l t ih => simp [concatAll, sumHash_append, ih]

theorem sumDebit_concatAll (ls : List (List NachaEntry)) :
    sumDebit (concatAll ls) = (ls.map sumDebit).sum := by
  induction ls with
  | nil => rfl
  | cons l t ih => simp [concatAll, sumDebit_append, ih]

theorem sumCredit_concatAll (ls : List (List NachaEntry)) :
    sumCredit (concatAll ls) = (ls.map sumCredit).sum := by
  induction ls with
  | nil => rfl
  | cons l t ih => simp [concatAll, sumCredit_append, ih]

theorem sumRecords_concatAll (ls : List (List NachaEntry)) :
    sumRecords (concatAll ls) = (ls.map sumRecords).sum := by
  induction ls with
  | nil => rfl
  | cons l t ih => simp [concatAll, sumRecords_append, ih]

/-- C3 (amended). In any construction run, each batch control record's
entry/addenda count equals the number of entries plus the number of
addenda records of that batch (not the bare entry count when addenda are
present), its entry hash equals the recomputed sum of the first 8 digits
of every entry's routing number mod 10^10, and its debit/credit totals
equal the sums of entry amounts by transaction-code polarity; the file
control record aggregates all of these over the batches. -/
theorem controlTotals_spec (cfg : NachaConfig) (ops : List NachaOp) (n : Nat) :
    (∀ b ∈ ((NachaGen.init cfg).runOps ops).batchesRev,
        (b.controlRec cfg).entryAddendaCount
            = b.entries.length + (b.entries.filter fun e => e.addenda.isSome).length ∧
        (b.controlRec cfg).entryHash = sumHash b.entries % 10 ^ 10 ∧
        (b.controlRec cfg).totalDebit = sumDebit b.entries ∧
        (b.controlRec cfg).totalCredit = sumCredit b.entries) ∧
    ((((NachaGen.init cfg).runOps ops).fileControlRec n).entryAddendaCount
        = (((NachaGen.init cfg).runOps ops).batchesRev.map fun b => sumRecords b.entries).sum ∧
     (((NachaGen.init cfg).runOps ops).fileControlRec n).entryHash
        = (((NachaGen.init cfg).runOps ops).batchesRev.map fun b => sumHash b.entries).sum % 10 ^ 10 ∧
     (((NachaGen.init cfg).runOps ops).fileControlRec n).totalDebit
        = (((NachaGen.init cfg).runOps ops).batchesRev.map fun b => sumDebit b.entries).sum ∧
     (((NachaGen.init cfg).runOps ops).fileControlRec n).totalCredit
        = (((NachaGen.init cfg).runOps ops).batchesRev.map fun b => sumCredit b.entries).sum ∧
     (((NachaGen.init cfg).runOps ops).fileControlRec n).batchCount
        = ((NachaGen.init cfg).runOps ops).batchesRev.length) := by
  have hinv := genInv_runOps cfg ops
  constructor
  · intro b hb
    refine ⟨?_, ?_, ?_, ?_⟩
    · simp only [NachaBatchRec.controlRec, hinv.batchCount b hb, sumRecords_eq]
    · simp only [NachaBatchRec.controlRec, hinv.batchHash b hb]
    · simp only [NachaBatchRec.controlRec, hinv.batchDebit b hb]
    · simp only [NachaBatchRec.controlRec, hinv.batchCredit b hb]
  · refine ⟨?_, ?_, ?_, ?_, rfl⟩
    · simp only [NachaGen.fileControlRec, hinv.fileCount, NachaGen.allEntries,
        sumRecords_concatAll, List.map_map, List.map_reverse, List.sum_reverse]
      rfl
    · simp only [NachaGen.fileControlRec, hinv.fileHash, NachaGen.allEntries,
        sumHash_concatAll, List.map_map, List.map_reverse, List.sum_reverse]
      rfl
    · simp only [NachaGen.fileControlRec, hinv.fileDebit, NachaGen.allEntries,
        sumDebit_concatAll, List.map_map, List.map_reverse, List.sum_reverse]
      rfl
    · simp only [NachaGen.fileControlRec, hinv.fileCredit, NachaGen.allEntries,
        sumCredit_concatAll, List.map_map, List.map_reverse, List.sum_reverse]
      rfl

/-- Entry parameters carrying addenda text, for the C3 counterexample. -/
def addendaParams : EntryParams :=
  ⟨CHECKING_CREDIT, ("021000021").toList, ("12345678").toList, (10000 : Int),
   ("VEND1").toList, ("ACME SUPPLIES").toList, some (("INVOICE 42").toList)⟩

/-- Generator holding one batch with one addenda-bearing entry. -/
def addendaGen : NachaGen :=
  (NachaGen.init demoConfig).runOps
    [NachaOp.createBatch, NachaOp.addEntry addendaParams]

/-- Counterexample to C3 as stated: with one entry carrying addenda text,
the batch control record's entry/addenda count field is 2, not the
batch's entry count 1 — the field counts addenda records as well. -/
theorem controlTotals_counterexample :
    ((addendaGen.batchesRev.getD 0 ⟨0, [], 0, 0, 0, 0⟩).controlRec
        addendaGen.config).entryAddendaCount = 2 ∧
    (addendaGen.batchesRev.getD 0 ⟨0, [], 0, 0, 0, 0⟩).entries.length = 1 := by
  decide

/-- Witness for C3 (amended): the control-total identities applied to the
concrete addenda-bearing run. -/
theorem controlTotals_spec_witness :
    ∀ b ∈ addendaGen.batchesRev,
      (b.controlRec demoConfig).entryAddendaCount
          = b.entries.length + (b.entries.filter fun e => e.addenda.isSome).length ∧
      (b.controlRec demoConfig).entryHash = sumHash b.entries % 10 ^ 10 ∧
      (b.controlRec demoConfig).totalDebit = sumDebit b.entries ∧
      (b.controlRec demoConfig).totalCredit = sumCredit b.entries :=
  (controlTotals_spec demoConfig
    [NachaOp.createBatch, NachaOp.addEntry addendaParams] 0).1

/-! ### Entry validation (C7) -/

/-- C7. `addEntry` fails with `InvalidRoutingNumber` when the routing
number does not pass the §4.1 checksum, and with `InvalidAmount` when the
amount is not a positive integer number of cents; on any failure the
generator is unchanged (no entry appended), so every entry reachable in a
generated file has a checksum-valid routing number and amount > 0. -/
theorem addEntry_validation_spec :
    (∀ (g : NachaGen) (p : EntryParams),
        validateRoutingNumber p.routingNumber = false →
          g.addEntry p = .error .InvalidRoutingNumber) ∧
    (∀ (g : NachaGen) (p : EntryParams),
        validateRoutingNumber p.routingNumber = true → p.amount ≤ 0 →
          g.addEntry p = .error .InvalidAmount) ∧
    (∀ (g : NachaGen) (p : EntryParams) (err : NachaError),
        g.addEntry p = .error err → g.applyOp (.addEntry p) = g) ∧
    (∀ (cfg : NachaConfig) (ops : List NachaOp),
        ∀ e ∈ ((NachaGen.init cfg).runOps ops).allEntries,
          validateRoutingNumber e.routingNumber = true ∧ 0 < e.amount) := by
  refine ⟨?_, ?_, ?_, ?_⟩
  · intro g p h
    simp [NachaGen.addEntry, h]
  · intro g p h1 h2
    simp [NachaGen.addEntry, h1, h2]
  · intro g p err h
    simp [NachaGen.applyOp, h]
  · intro cfg ops
    exact (genInv_runOps cfg ops).valid

/-- Parameters with a checksum-invalid routing number. -/
def badRoutingParams : EntryParams :=
  ⟨CHECKING_CREDIT, ("123456789").toList, ("12345678").toList, (10000 : Int),
   ("VEND1").toList, ("ACME SUPPLIES").toList, none⟩

/-- Parameters with a non-positive amount. -/
def badAmountParams : EntryParams :=
  ⟨CHECKING_CREDIT, ("021000021").toList, ("12345678").toList, (0 : Int),
   ("VEND1").toList, ("ACME SUPPLIES").toList, none⟩

/-- Witness for C7: the validation failures and the entry invariant at
concrete inputs. -/
theorem addEntry_validation_spec_witness :
    (NachaGen.init demoConfig).addEntry badRoutingParams
        = .error .InvalidRoutingNumber ∧
    (NachaGen.init demoConfig).addEntry badAmountParams
        = .error .InvalidAmount ∧
    (∀ e ∈ demoGen.allEntries,
        validateRoutingNumber e.routingNumber = true ∧ 0 < e.amount) :=
  ⟨addEntry_validation_spec.1 (NachaGen.init demoConfig) badRoutingParams (by decide),
   addEntry_validation_spec.2.1 (NachaGen.init demoConfig) badAmountParams
     (by decide) (by decide),
   addEntry_validation_spec.2.2.2 demoConfig
     [NachaOp.createBatch, NachaOp.addEntry demoParams]⟩

/-! ### Server endpoint embedding (from `server.js`) -/

/-- Row of `payment_items` joined with vendor and bank-account data, as the
generate-nacha endpoint reads it. Amounts are integer cents. -/
structure PaymentItemRow where
  itemId : Nat
  vendorId : Str
  vendorName : Str
  routingNumber : Str
  accountNumber : Str
  accountType : Str
  amount : Int
  memo : Option Str
  status : Str
  traceNumber : Option Str
deriving DecidableEq

/-- Row of `payment_batches` (the status field the endpoint checks). -/
structure PaymentBatchRow where
  status : Str
deriving DecidableEq

/-- Row of `company_nacha_settings` joined onto the batch. -/
structure NachaSettingsRow where
  companyName : Str
  companyId : Str
  originatingDFIId : Str
  companyEntryDescription : Str
  companyDescriptiveDate : Str
  effectiveEntryDate : Str
  isProduction : Bool
  batchNumberCounter : Nat
deriving DecidableEq

/-- Database state touched by the generate-nacha endpoint: the batch, its
settings, its payment items, and the persisted generated files. -/
structure GenState where
  batch : PaymentBatchRow
  settings : NachaSettingsRow
  items : List PaymentItemRow
  files : List (List Str)
deriving DecidableEq

/-- Responses the generate-nacha endpoint can produce (the batch-not-found
404 is out of scope: the batch row is part of the state here). -/
inductive GenResponse where
  | badStatus (s : Str)
  | emptyItems
  | serverError (e : NachaError)
  | success
deriving DecidableEq

/-- Generator configuration the endpoint builds from the batch's NACHA
settings (`new NachaGenerator({...})` in `server.js`): fixed immediate
destination, company id zero-padded to 10 as immediate origin. File
creation date/time are wall-clock in the source and irrelevant to every
claim; they are fixed here. -/
def configOf (s : NachaSettingsRow) : NachaConfig :=
  ⟨("999999999").toList, zeroPad 10 s.companyId, s.companyName, s.companyId,
   s.companyEntryDescription, s.companyDescriptiveDate, s.effectiveEntryDate,
   s.originatingDFIId, s.isProduction, ("250101").toList, ("0000").toList⟩

/-- Transaction-code selection of the endpoint (`server.js`): savings
credit for savings accounts, checking credit otherwise. -/
def codeOfItem (it : PaymentItemRow) : Str :=
  if it.accountType = ("savings").toList then SAVINGS_CREDIT else CHECKING_CREDIT

/-- Entry parameters the endpoint passes to `addEntry` for one item. -/
def paramsOfItem (it : PaymentItemRow) : EntryParams :=
  ⟨codeOfItem it, it.routingNumber, it.accountNumber, it.amount,
   it.vendorId, it.vendorName, it.memo⟩

/-- The endpoint's `forEach` loop adding one entry per payment item; the
first `addEntry` failure aborts the whole request. -/
def addAllItems : NachaGen → List PaymentItemRow → Except NachaError NachaGen
  | g, [] => .ok g
  | g, it :: rest =>
    match g.addEntry (paramsOfItem it) with
    | .error e => .error e
    | .ok r => addAllItems r.1 rest

/-- One step of the endpoint's trace-persistence loop (`server.js`): item
`i` receives the `i`-th generated entry's trace number and status
'processed' unless that trace is absent (entry missing or empty trace)
or longer than 15 characters, in which case the item is left unchanged. -/
def updateItemFromEntry (entries : List NachaEntry) (i : Nat)
    (it : PaymentItemRow) : PaymentItemRow :=
  match entries[i]? with
  | none => it
  | some e =>
    if e.traceNumber.length = 0 ∨ e.traceNumber.length > 15 then it
    else { it with status := ("processed").toList, traceNumber := some e.traceNumber }

/-- Trace-persistence loop, indexed from `k`. -/
def persistTracesAux (entries : List NachaEntry) :
    Nat → List PaymentItemRow → List PaymentItemRow
  | _, [] => []
  | i, it :: rest =>
    updateItemFromEntry entries i it :: persistTracesAux entries (i + 1) rest

/-- The endpoint's trace-persistence loop over all payment items. -/
def persistTraces (entries : List NachaEntry) (items : List PaymentItemRow) :
    List PaymentItemRow :=
  persistTracesAux entries 0 items

/-- Entries of the batch handle the endpoint created (`nachaBatch.entries`;
the endpoint creates exactly one batch). -/
def NachaGen.handleEntries (g : NachaGen) : List NachaEntry :=
  (g.batchesRev.getD 0 ⟨0, [], 0, 0, 0, 0⟩).entries

/-- State after a successful generation: settings batch counter bumped,
batch marked processed, items updated by the trace loop, file persisted. -/
def successState (st : GenState) (g : NachaGen) (lines : List Str) : GenState :=
  { st with
      settings :=
        { st.settings with batchNumberCounter := st.settings.batchNumberCounter + 1 }
      batch := { st.batch with status := ("processed").toList }
      items := persistTraces g.handleEntries st.items
      files := st.files ++ [lines] }

/-- The POST `/api/payment-batches/:id/generate-nacha` handler
(`server.js`): reject unless the batch status is 'approved'; reject a
batch with no payment items; build the generator, one batch, one entry
per item (credit codes only); generate the file; on success persist the
file, bump the batch-number counter, mark the batch processed and run the
trace-persistence loop. A thrown generator error surfaces as a server
error with no state change. -/
def generateNachaEndpoint (st : GenState) : GenResponse × GenState :=
  if st.batch.status ≠ ("approved").toList then
    (.badStatus st.batch.status, st)
  else if st.items.isEmpty then
    (.emptyItems, st)
  else
    match addAllItems ((NachaGen.init (configOf st.settings)).createBatch.1) st.items with
    | .error e => (.serverError e, st)
    | .ok g =>
      match g.generateFile with
      | .error e => (.serverError e, st)
      | .ok lines => (.success, successState st g lines)

/-- Exhaustive case analysis of the generate-nacha endpoint. -/
theorem endpoint_cases (st : GenState) :
    (st.batch.status ≠ ("approved").toList ∧
      generateNachaEndpoint st = (.badStatus st.batch.status, st)) ∨
    (st.batch.status = ("approved").toList ∧ st.items = [] ∧
      generateNachaEndpoint st = (.emptyItems, st)) ∨
    (st.batch.status = ("approved").toList ∧ st.items ≠ [] ∧
      ∃ e : NachaError,
        generateNachaEndpoint st = (.serverError e, st)) ∨
    (st.batch.status = ("approved").toList ∧ st.items ≠ [] ∧
      ∃ (g : NachaGen) (lines : List Str),
        addAllItems ((NachaGen.init (configOf st.settings)).createBatch.1) st.items
          = .ok g ∧
        g.generateFile = .ok lines ∧
        generateNachaEndpoint st = (.success, successState st g lines)) := by
  by_cases h1 : st.batch.status ≠ ("approved").toList
  · left
    exact ⟨h1, by unfold generateNachaEndpoint; rw [if_pos h1]⟩
  · have h1' : st.batch.status = ("approved").toList := by
      by_contra hc
      exact h1 hc
    by_cases h2 : st.items.isEmpty
    · right; left
      refine ⟨h1', List.isEmpty_iff.mp h2, ?_⟩
      unfold generateNachaEndpoint
      rw [if_neg h1, if_pos h2]
    · have h2' : st.items ≠ [] := by
        intro hc
        exact h2 (by simp [hc])
      match ha : addAllItems ((NachaGen.init (configOf st.settings)).createBatch.1) st.items with
      | .error e =>
        right; right; left
        refine ⟨h1', h2', e, ?_⟩
        unfold generateNachaEndpoint
        rw [if_neg h1, if_neg h2, ha]
      | .ok g =>
        match hf : g.generateFile with
        | .error e =>
          right; right; left
          refine ⟨h1', h2', e, ?_⟩
          unfold generateNachaEndpoint
          rw [if_neg h1, if_neg h2, ha]
          change (match g.generateFile with
            | Except.error e => (GenResponse.serverError e, st)
            | Except.ok lines => (GenResponse.success, successState st g lines)) = _
          rw [hf]
        | .ok lines =>
          right; right; right
          refine ⟨h1', h2', g, lines, rfl, hf, ?_⟩
          unfold generateNachaEndpoint
          rw [if_neg h1, if_neg h2, ha]
          change (match g.generateFile with
            | Except.error e => (GenResponse.serverError e, st)
            | Except.ok lines => (GenResponse.success, successState st g lines)) = _
          rw [hf]

/-! ### Empty-file rejection (C5) -/

/-- C5. `generateFile` fails with `EmptyFile` when no batches or no entries
exist, producing no file text; and the endpoint rejects a batch with zero
payment items synchronously, with no file written and no state change. -/
theorem emptyFile_spec :
    (∀ g : NachaGen, (g.batchesRev = [] ∨ ∀ b ∈ g.batchesRev, b.entries = []) →
        g.generateFile = .error .EmptyFile) ∧
    (∀ st : GenState, st.batch.status = ("approved").toList → st.items = [] →
        generateNachaEndpoint st = (.emptyItems, st)) := by
  constructor
  · intro g hg
    have hc : (g.batchesRev.isEmpty = true) ∨
        (g.batchesRev.all (fun b => b.entries.isEmpty) = true) := by
      rcases hg with h | h
      · left
        simp [List.isEmpty_iff, h]
      · right
        simp only [List.all_eq_true]
        intro b hb
        simp [List.isEmpty_iff, h b hb]
    unfold NachaGen.generateFile
    rw [if_pos hc]
  · intro st h1 h2
    unfold generateNachaEndpoint
    rw [if_neg (fun hc => hc h1), if_pos (by simp [h2])]

/-- Settings row used by the endpoint demonstrations. -/
def demoSettings : NachaSettingsRow :=
  ⟨("TPF").toList, ("1234567890").toList, ("02100002").toList,
   ("PAYMENT").toList, ("251010").toList, ("251012").toList, false, 1⟩

/-- A valid payment item row (checking account, $100.00). -/
def demoItem : PaymentItemRow :=
  ⟨1, ("VEND1").toList, ("ACME SUPPLIES").toList, ("021000021").toList,
   ("12345678").toList, ("checking").toList, (10000 : Int), none,
   ("approved").toList, none⟩

/-- Approved batch with one valid payment item. -/
def demoState : GenState :=
  ⟨⟨("approved").toList⟩, demoSettings, [demoItem], []⟩

/-- Approved batch with zero payment items. -/
def emptyItemsState : GenState :=
  ⟨⟨("approved").toList⟩, demoSettings, [], []⟩

/-- Witness for C5: a fresh generator has no batches and fails with
`EmptyFile`; the endpoint rejects the concrete zero-item batch without
changing state. -/
theorem emptyFile_spec_witness :
    (NachaGen.init demoConfig).generateFile = .error .EmptyFile ∧
    generateNachaEndpoint emptyItemsState = (.emptyItems, emptyItemsState) :=
  ⟨emptyFile_spec.1 _ (Or.inl rfl), emptyFile_spec.2 emptyItemsState rfl rfl⟩

/-! ### Status gating (C6) -/

/-- C6. The endpoint succeeds only on a batch whose status is 'approved'
(any other status is rejected, unchanged state, before generation); a
successful generation sets the status to 'processed'; hence under
sequential invocation a repeated request on the same batch is rejected —
generation succeeds at most once per approved batch. -/
theorem statusGate_spec :
    (∀ st : GenState, st.batch.status ≠ ("approved").toList →
        generateNachaEndpoint st = (.badStatus st.batch.status, st)) ∧
    (∀ st : GenState, (generateNachaEndpoint st).1 = .success →
        st.batch.status = ("approved").toList ∧
        (generateNachaEndpoint st).2.batch.status = ("processed").toList) ∧
    (∀ st : GenState, (generateNachaEndpoint st).1 = .success →
        generateNachaEndpoint ((generateNachaEndpoint st).2)
          = (.badStatus (("processed").toList), (generateNachaEndpoint st).2)) := by
  have hrej : ∀ st : GenState, st.batch.status ≠ ("approved").toList →
      generateNachaEndpoint st = (.badStatus st.batch.status, st) := by
    intro st h
    unfold generateNachaEndpoint
    rw [if_pos h]
  have hsucc : ∀ st : GenState, (generateNachaEndpoint st).1 = .success →
      st.batch.status = ("approved").toList ∧
      (generateNachaEndpoint st).2.batch.status = ("processed").toList := by
    intro st h
    rcases endpoint_cases st with ⟨hs, heq⟩ | ⟨hs, _, heq⟩ | ⟨hs, _, e, heq⟩ |
      ⟨hs, _, g, lines, _, _, heq⟩
    · rw [heq] at h
      exact absurd h (by simp)
    · rw [heq] at h
      exact absurd h (by simp)
    · rw [heq] at h
      exact absurd h (by simp)
    · rw [heq]
      exact ⟨hs, rfl⟩
  refine ⟨hrej, hsucc, ?_⟩
  intro st h
  have h2 := (hsucc st h).2
  have h3 : (generateNachaEndpoint st).2.batch.status ≠ ("approved").toList := by
    rw [h2]
    decide
  rw [hrej _ h3, h2]

/-- Witness for C6: the concrete approved one-item batch generates
successfully, ends 'processed', and a repeated request is rejected. -/
theorem statusGate_spec_witness :
    (demoState.batch.status = ("approved").toList ∧
     (generateNachaEndpoint demoState).2.batch.status = ("processed").toList) ∧
    generateNachaEndpoint ((generateNachaEndpoint demoState).2)
      = (.badStatus (("processed").toList), (generateNachaEndpoint demoState).2) :=
  ⟨statusGate_spec.2.1 demoState (by decide),
   statusGate_spec.2.2 demoState (by decide)⟩

/-! ### Credit-only entries (C9) -/

theorem addAllItems_runOps : ∀ (items : List PaymentItemRow) (g g' : NachaGen),
    addAllItems g items = .ok g' →
    g' = g.runOps (items.map fun it => NachaOp.addEntry (paramsOfItem it)) := by
  intro items
  induction items with
  | nil =>
    intro g g' h
    simp only [addAllItems, Except.ok.injEq] at h
    subst h
    rfl
  | cons it rest ih =>
    intro g g' h
    simp only [addAllItems] at h
    match ha : g.addEntry (paramsOfItem it) with
    | .error e => simp [ha] at h
    | .ok r =>
      simp only [ha] at h
      rw [ih r.1 g' h]
      simp only [List.map_cons]
      have hstep : g.runOps (NachaOp.addEntry (paramsOfItem it) ::
          (rest.map fun x => NachaOp.addEntry (paramsOfItem x)))
          = (g.applyOp (NachaOp.addEntry (paramsOfItem it))).runOps
              (rest.map fun x => NachaOp.addEntry (paramsOfItem x)) := by
        simp [NachaGen.runOps]
      rw [hstep]
      have happ : g.applyOp (NachaOp.addEntry (paramsOfItem it)) = r.1 := by
        simp [NachaGen.applyOp, ha]
      rw [happ]

theorem addAllItems_entries : ∀ (items : List PaymentItemRow) (g g' : NachaGen),
    addAllItems g items = .ok g' →
    ∃ es, g'.allEntries = g.allEntries ++ es ∧
      List.Forall₂ (fun (e : NachaEntry) (it : PaymentItemRow) =>
        e.transactionCode = codeOfItem it) es items := by
  intro items
  induction items with
  | nil =>
    intro g g' h
    simp only [addAllItems, Except.ok.injEq] at h
    subst h
    exact ⟨[], by simp, List.Forall₂.nil⟩
  | cons it rest ih =>
    intro g g' h
    simp only [addAllItems] at h
    match ha : g.addEntry (paramsOfItem it) with
    | .error e => simp [ha] at h
    | .ok r =>
      simp only [ha] at h
      obtain ⟨es, hes, hf⟩ := ih r.1 g' h
      have h1 : r.1.allEntries = g.allEntries ++ [r.2] :=
        allEntries_addEntry_ok (by rw [ha])
      have hcode : r.2.transactionCode = codeOfItem it := by
        obtain ⟨b, rest', _, _, _, he, _⟩ :=
          addEntry_ok_spec (show g.addEntry (paramsOfItem it) = .ok (r.1, r.2) by rw [ha])
        rw [he]
        rfl
      refine ⟨r.2 :: es, ?_, List.Forall₂.cons hcode hf⟩
      rw [hes, h1]
      simp

theorem forall₂_mem_left {α β : Type} {R : α → β → Prop} :
    ∀ {l1 : List α} {l2 : List β},
      List.Forall₂ R l1 l2 → ∀ a ∈ l1, ∃ b ∈ l2, R a b := by
  intro l1 l2 h
  induction h with
  | nil =>
    intro a ha
    simp at ha
  | @cons x y t1 t2 hr ht ih =>
    intro a ha
    rcases List.mem_cons.mp ha with h1 | h1
    · subst h1
      exact ⟨y, List.mem_cons_self y t2, hr⟩
    · obtain ⟨b, hb, hrb⟩ := ih a h1
      exact ⟨b, List.mem_cons_of_mem y hb, hrb⟩

theorem mem_allEntries_of_mem_batch {g : NachaGen} {b : NachaBatchRec}
    (hb : b ∈ g.batchesRev) {e : NachaEntry} (he : e ∈ b.entries) :
    e ∈ g.allEntries := by
  unfold NachaGen.allEntries
  rw [mem_concatAll]
  exact ⟨b.entries, List.mem_map_of_mem _ (List.mem_reverse.mpr hb), he⟩

theorem sumDebit_eq_zero : ∀ {l : List NachaEntry},
    (∀ e ∈ l, isDebitCode e.transactionCode = false) → sumDebit l = 0 := by
  intro l
  induction l with
  | nil => intro _; rfl
  | cons e t ih =>
    intro h
    have he := h e (List.mem_cons_self e t)
    have ht := fun x hx => h x (List.mem_cons_of_mem e hx)
    simp only [sumDebit, List.map_cons, List.sum_cons, he, Bool.false_eq_true,
      if_false] at ih ⊢
    simpa [sumDebit] using ih ht

theorem isDebitCode_codeOfItem (it : PaymentItemRow) :
    isDebitCode (codeOfItem it) = false := by
  unfold codeOfItem
  by_cases h : it.accountType = ("savings").toList
  · rw [if_pos h]
    decide
  · rw [if_neg h]
    decide

/-- C9. Every entry added by the endpoint's item loop carries a credit
transaction code — savings credit exactly when the item's bank account
type is 'savings', checking credit otherwise — never a debit code, so the
batch and file control debit totals of every file generated this way
are 0. -/
theorem creditOnly_spec (s : NachaSettingsRow) (items : List PaymentItemRow)
    (g : NachaGen)
    (h : addAllItems ((NachaGen.init (configOf s)).createBatch.1) items = .ok g) :
    List.Forall₂ (fun (e : NachaEntry) (it : PaymentItemRow) =>
        e.transactionCode =
          (if it.accountType = ("savings").toList then SAVINGS_CREDIT
           else CHECKING_CREDIT)) g.allEntries items ∧
    (∀ e ∈ g.allEntries, isDebitCode e.transactionCode = false) ∧
    (∀ b ∈ g.batchesRev, (b.controlRec (configOf s)).totalDebit = 0) ∧
    (∀ n : Nat, (g.fileControlRec n).totalDebit = 0) := by
  obtain ⟨es, hes, hf⟩ := addAllItems_entries items _ g h
  have hg2 : g = (NachaGen.init (configOf s)).runOps
      (NachaOp.createBatch :: items.map fun it => NachaOp.addEntry (paramsOfItem it)) := by
    rw [addAllItems_runOps items _ g h]
    simp [NachaGen.runOps]
    rfl
  have hinv : GenInv g := by
    rw [hg2]
    exact genInv_runOps _ _
  have hall0 : ((NachaGen.init (configOf s)).createBatch.1).allEntries = [] := rfl
  rw [hall0, List.nil_append] at hes
  have hcodes : ∀ e ∈ g.allEntries, isDebitCode e.transactionCode = false := by
    intro e he
    rw [hes] at he
    obtain ⟨it, _, hr⟩ := forall₂_mem_left hf e he
    rw [hr]
    exact isDebitCode_codeOfItem it
  refine ⟨?_, hcodes, ?_, ?_⟩
  · rw [hes]
    exact hf.imp (fun a b hab => by rw [hab]; rfl)
  · intro b hb
    have : (b.controlRec (configOf s)).totalDebit = b.debitAcc := rfl
    rw [this, hinv.batchDebit b hb]
    exact sumDebit_eq_zero fun e he =>
      hcodes e (mem_allEntries_of_mem_batch hb he)
  · intro n
    have : (g.fileControlRec n).totalDebit = g.fileDebitAcc := rfl
    rw [this, hinv.fileDebit]
    exact sumDebit_eq_zero hcodes

/-- Generator built by the endpoint for the demonstration state. -/
def demoEndpointGen : NachaGen :=
  match addAllItems ((NachaGen.init (configOf demoSettings)).createBatch.1)
      [demoItem] with
  | .ok g => g
  | .error _ => NachaGen.init (configOf demoSettings)

/-- Witness for C9: the concrete one-item run produces only credit codes
and zero debit totals. -/
theorem creditOnly_spec_witness :
    (∀ e ∈ demoEndpointGen.allEntries, isDebitCode e.transactionCode = false) ∧
    (∀ n : Nat, (demoEndpointGen.fileControlRec n).totalDebit = 0) :=
  ⟨(creditOnly_spec demoSettings [demoItem] demoEndpointGen rfl).2.1,
   (creditOnly_spec demoSettings [demoItem] demoEndpointGen rfl).2.2.2⟩

/-! ### Trace persistence edge case (C10) -/

theorem persistTracesAux_getElem (entries : List NachaEntry) :
    ∀ (items : List PaymentItemRow) (k i : Nat),
      (persistTracesAux entries k items)[i]?
        = (items[i]?).map (updateItemFromEntry entries (k + i)) := by
  intro items
  induction items with
  | nil =>
    intro k i
    simp [persistTracesAux]
  | cons it rest ih =>
    intro k i
    match i with
    | 0 => simp [persistTracesAux]
    | i + 1 =>
      simp only [persistTracesAux, List.getElem?_cons_succ]
      rw [ih (k + 1) i]
      have harith : k + 1 + i = k + (i + 1) := by omega
      rw [harith]

theorem persistTraces_getElem (entries : List NachaEntry)
    (items : List PaymentItemRow) (i : Nat) :
    (persistTraces entries items)[i]?
      = (items[i]?).map (updateItemFromEntry entries i) := by
  unfold persistTraces
  rw [persistTracesAux_getElem]
  rw [Nat.zero_add]

/-- C10. In the endpoint's trace-persistence loop, an item whose generated
trace number is absent or longer than 15 characters is skipped — left
unchanged — while a successful generation still persists the file, marks
the batch 'processed', and reports overall success, with the items
updated exactly by that loop. -/
theorem tracePersist_spec :
    (∀ (entries : List NachaEntry) (items : List PaymentItemRow) (i : Nat),
        (entries[i]? = none ∨
          ∃ e, entries[i]? = some e ∧
            (e.traceNumber.length = 0 ∨ e.traceNumber.length > 15)) →
        (persistTraces entries items)[i]? = items[i]?) ∧
    (∀ st : GenState, (generateNachaEndpoint st).1 = .success →
        ∃ (g : NachaGen) (lines : List Str),
          g.generateFile = .ok lines ∧
          (generateNachaEndpoint st).2 = successState st g lines ∧
          (generateNachaEndpoint st).2.batch.status = ("processed").toList ∧
          (generateNachaEndpoint st).2.files = st.files ++ [lines] ∧
          (generateNachaEndpoint st).2.items = persistTraces g.handleEntries st.items) := by
  constructor
  · intro entries items i hcond
    rw [persistTraces_getElem]
    match hit : items[i]? with
    | none => rfl
    | some it =>
      show some (updateItemFromEntry entries i it) = some it
      have : updateItemFromEntry entries i it = it := by
        unfold updateItemFromEntry
        rcases hcond with hn | ⟨e, he, hlen⟩
        · rw [hn]
        · rw [he]
          show (if e.traceNumber.length = 0 ∨ e.traceNumber.length > 15 then it
            else { it with
                     status := ("processed").toList
                     traceNumber := some e.traceNumber }) = it
          rw [if_pos hlen]
      rw [this]
  · intro st h
    rcases endpoint_cases st with ⟨_, heq⟩ | ⟨_, _, heq⟩ | ⟨_, _, e, heq⟩ |
      ⟨_, _, g, lines, _, hf, heq⟩
    · rw [heq] at h
      exact absurd h (by simp)
    · rw [heq] at h
      exact absurd h (by simp)
    · rw [heq] at h
      exact absurd h (by simp)
    · refine ⟨g, lines, hf, ?_, ?_, ?_, ?_⟩ <;> rw [heq] <;> rfl

/-- Entry whose trace number is 16 characters — longer than the 15-digit
NACHA trace field. -/
def longTraceEntry : NachaEntry :=
  ⟨CHECKING_CREDIT, ("021000021").toList, ("12345678").toList, 10000,
   ("VEND1").toList, ("ACME SUPPLIES").toList, none, 1,
   ("1234567890123456").toList⟩

/-- Witness for C10: with a 16-character trace the concrete item is left
unchanged, and the concrete successful generation still reports success
with the persisted file and 'processed' batch. -/
theorem tracePersist_spec_witness :
    (persistTraces [longTraceEntry] [demoItem])[0]?
        = ([demoItem] : List PaymentItemRow)[0]? ∧
    ∃ (g : NachaGen) (lines : List Str),
      g.generateFile = .ok lines ∧
      (generateNachaEndpoint demoState).2 = successState demoState g lines ∧
      (generateNachaEndpoint demoState).2.batch.status = ("processed").toList ∧
      (generateNachaEndpoint demoState).2.files = demoState.files ++ [lines] ∧
      (generateNachaEndpoint demoState).2.items
          = persistTraces g.handleEntries demoState.items :=
  ⟨tracePersist_spec.1 [longTraceEntry] [demoItem] 0
      (Or.inr ⟨longTraceEntry, rfl, Or.inr (by decide)⟩),
   tracePersist_spec.2 demoState (by decide)⟩

/-! ### NACHA settings DFI validation (C8) -/

/-- Request body fields of the POST/PUT nacha-settings handlers; a missing
or falsy `originating_dfi_id` is `none`. -/
structure NachaSettingsReq where
  companyName : Str
  companyId : Str
  originatingDFIId : Option Str
  companyEntryDescription : Str
  companyDescriptiveDate : Str
  effectiveEntryDate : Str
  isProduction : Bool
deriving DecidableEq

/-- The originating DFI id validation shared by the POST and PUT handlers
(`server.js`): reject when the field is missing/falsy or its length is
not 8; the characters are not otherwise inspected. -/
def dfiCheckPasses (dfi : Option Str) : Bool :=
  match dfi with
  | none => false
  | some s => decide (s.length = 8)

/-- Settings row created from an accepted request (counter starts at 1). -/
def rowOfReq (req : NachaSettingsReq) : NachaSettingsRow :=
  ⟨req.companyName, req.companyId, req.originatingDFIId.getD [],
   req.companyEntryDescription, req.companyDescriptiveDate,
   req.effectiveEntryDate, req.isProduction, 1⟩

/-- POST `/api/nacha-settings` (`server.js`): validate the DFI id, then
insert the new row. A validation failure returns a 400 error and changes
nothing. -/
def postNachaSettings (rows : List NachaSettingsRow) (req : NachaSettingsReq) :
    Except Str (List NachaSettingsRow) :=
  if dfiCheckPasses req.originatingDFIId then .ok (rows ++ [rowOfReq req])
  else .error (("Originating DFI ID must be 8 digits").toList)

/-- PUT `/api/nacha-settings/:id` (`server.js`, row at index `i`): validate
the DFI id, then update the row in place (the batch-number counter is not
among the updated columns). A validation failure returns a 400 error and
changes nothing. -/
def putNachaSettings (rows : List NachaSettingsRow) (i : Nat)
    (req : NachaSettingsReq) : Except Str (List NachaSettingsRow) :=
  if dfiCheckPasses req.originatingDFIId then
    .ok (rows.set i
      { rowOfReq req with
          batchNumberCounter := (rows.getD i (rowOfReq req)).batchNumberCounter })
  else .error (("Originating DFI ID must be 8 digits").toList)

/-- An 8-digit string in the sense of the specification. -/
def isEightDigits (s : Str) : Bool :=
  decide (s.length = 8) && s.all Char.isDigit

theorem dfiCheckPasses_iff (dfi : Option Str) :
    dfiCheckPasses dfi = true ↔ ∃ s, dfi = some s ∧ s.length = 8 := by
  match dfi with
  | none => simp [dfiCheckPasses]
  | some s => simp [dfiCheckPasses]

/-- Counterexample to C8 as stated: the 8-letter value ABCDEFGH is not an
8-digit string, yet the POST handler accepts it and inserts the row —
only the length is validated, not the characters. -/
theorem dfiValidation_counterexample :
    isEightDigits (("ABCDEFGH").toList) = false ∧
    ∃ rows,
      postNachaSettings []
        ⟨("TPF").toList, ("1234567890").toList, some (("ABCDEFGH").toList),
         ("PAYMENT").toList, ("251010").toList, ("251012").toList, false⟩
        = .ok rows := by
  exact ⟨by decide, ⟨_, rfl⟩⟩

/-- C8 (amended). Creating or updating company NACHA settings fails with a
validation error and no database change exactly when the supplied
originating DFI id is missing or not exactly 8 characters long; any
8-character value is accepted — the handlers check only the length, not
that the characters are digits. -/
theorem dfiValidation_spec (rows : List NachaSettingsRow) (i : Nat)
    (req : NachaSettingsReq) :
    ((∃ out, postNachaSettings rows req = .ok out) ↔
        ∃ s, req.originatingDFIId = some s ∧ s.length = 8) ∧
    ((∃ out, putNachaSettings rows i req = .ok out) ↔
        ∃ s, req.originatingDFIId = some s ∧ s.length = 8) ∧
    (dfiCheckPasses req.originatingDFIId = false →
        postNachaSettings rows req
            = .error (("Originating DFI ID must be 8 digits").toList) ∧
        putNachaSettings rows i req
            = .error (("Originating DFI ID must be 8 digits").toList)) := by
  refine ⟨?_, ?_, ?_⟩
  · rw [← dfiCheckPasses_iff]
    unfold postNachaSettings
    constructor
    · intro ⟨out, hout⟩
      by_cases hc : dfiCheckPasses req.originatingDFIId = true
      · exact hc
      · rw [if_neg (by simpa using hc)] at hout
        exact absurd hout (by simp)
    · intro hc
      rw [if_pos hc]
      exact ⟨_, rfl⟩
  · rw [← dfiCheckPasses_iff]
    unfold putNachaSettings
    constructor
    · intro ⟨out, hout⟩
      by_cases hc : dfiCheckPasses req.originatingDFIId = true
      · exact hc
      · rw [if_neg (by simpa using hc)] at hout
        exact absurd hout (by simp)
    · intro hc
      rw [if_pos hc]
      exact ⟨_, rfl⟩
  · intro hc
    have hc' : ¬ dfiCheckPasses req.originatingDFIId = true := by simp [hc]
    constructor
    · unfold postNachaSettings
      rw [if_neg hc']
    · unfold putNachaSettings
      rw [if_neg hc']

/-- Request with a valid 8-digit DFI id. -/
def goodSettingsReq : NachaSettingsReq :=
  ⟨("TPF").toList, ("1234567890").toList, some (("02100002").toList),
   ("PAYMENT").toList, ("251010").toList, ("251012").toList, false⟩

/-- Request with the DFI id missing. -/
def missingDfiReq : NachaSettingsReq :=
  ⟨("TPF").toList, ("1234567890").toList, none,
   ("PAYMENT").toList, ("251010").toList, ("251012").toList, false⟩

/-- Witness for C8 (amended): a valid 8-digit DFI id is accepted; a missing
one is rejected with the validation error. -/
theorem dfiValidation_spec_witness :
    (∃ out, postNachaSettings [] goodSettingsReq = .ok out) ∧
    postNachaSettings [] missingDfiReq
        = .error (("Originating DFI ID must be 8 digits").toList) :=
  ⟨(dfiValidation_spec [] 0 goodSettingsReq).1.mpr
      ⟨("02100002").toList, rfl, by decide⟩,
   ((dfiValidation_spec [] 0 missingDfiReq).2.2 (by decide)).1⟩

end NachaSpec
